import Mathlib

/-!
Verification of the `node-handshake` repository: a shallow embedding of its
Bitcoin wire-format codec (message envelope, version payload, network
addresses) and of the reply-validation phase of its handshake, with theorems
settling the specification's claims about them.

Bytes are modelled as `List Nat`, every produced byte being `< 256` by
construction; multi-byte integers are `Nat`/`Int` with explicit reduction
modulo `2 ^ w` where the Rust code relies on fixed-width wraparound. The
target machine is little-endian, so Rust's `u32::from_ne_bytes` is modelled
as the little-endian conversion.
-/

namespace NodeHandshake

/-- A byte string: a list of naturals, each intended to be below 256. -/
abbrev Bytes := List Nat

/-! ## Little-endian integer encodings (the `byteorder` calls in the source) -/

/-- Two bytes, little endian, of `n % 2 ^ 16` (Rust `write_u16::<LittleEndian>`). -/
def u16LE (n : Nat) : Bytes := [n % 256, n / 256 % 256]

/-- Four bytes, little endian, of `n % 2 ^ 32` (Rust `write_u32::<LittleEndian>`). -/
def u32LE (n : Nat) : Bytes :=
  [n % 256, n / 256 % 256, n / 65536 % 256, n / 16777216 % 256]

/-- Eight bytes, little endian, of `n % 2 ^ 64` (Rust `write_u64::<LittleEndian>`). -/
def u64LE (n : Nat) : Bytes :=
  [n % 256, n / 256 % 256, n / 65536 % 256, n / 16777216 % 256,
   n / 4294967296 % 256, n / 1099511627776 % 256,
   n / 281474976710656 % 256, n / 72057594037927936 % 256]

/-- Four bytes, little endian, of an `i32` in two's complement. -/
def i32LE (v : Int) : Bytes := u32LE (v % 4294967296).toNat

/-- Eight bytes, little endian, of an `i64` in two's complement. -/
def i64LE (v : Int) : Bytes := u64LE (v % 18446744073709551616).toNat

/-- Little-endian value of a byte string (`u32::from_le_bytes` and friends). -/
def fromLEBytes : Bytes → Nat
  | [] => 0
  | b :: bs => b + 256 * fromLEBytes bs

/-- Signed (two's complement) reading of four little-endian bytes
(Rust `read_i32::<LittleEndian>`). -/
def i32fromLE (bs : Bytes) : Int :=
  let n := fromLEBytes bs
  if n < 2147483648 then (n : Int) else (n : Int) - 4294967296

/-- Signed (two's complement) reading of eight little-endian bytes
(Rust `read_i64::<LittleEndian>`). -/
def i64fromLE (bs : Bytes) : Int :=
  let n := fromLEBytes bs
  if n < 9223372036854775808 then (n : Int) else (n : Int) - 18446744073709551616

/-! ## SHA-256

A model of the `openssl::sha::sha256` function the source calls from
`utils.rs`; the FIPS 180-4 algorithm over byte lists, all 32-bit words
carried as `Nat` reduced modulo `2 ^ 32`. -/

/-- Right rotation of a 32-bit word. -/
def rotr32 (n x : Nat) : Nat := ((x >>> n) ||| (x <<< (32 - n))) % 4294967296

/-- The eight initial hash words of SHA-256. -/
structure Hash8 where
  a : Nat
  b : Nat
  c : Nat
  d : Nat
  e : Nat
  f : Nat
  g : Nat
  h : Nat
deriving DecidableEq, Repr

/-- SHA-256 initial state. -/
def sha256InitH : Hash8 :=
  ⟨1779033703, 3144134277, 1013904242, 2773480762,
   1359893119, 2600822924, 528734635, 1541459225⟩

/-- The 64 SHA-256 round constants. -/
def sha256K : List Nat :=
  [1116352408, 1899447441, 3049323471, 3921009573, 961987163,
   1508970993, 2453635748, 2870763221, 3624381080, 310598401,
   607225278, 1426881987, 1925078388, 2162078206, 2614888103,
   3248222580, 3835390401, 4022224774, 264347078, 604807628,
   770255983, 1249150122, 1555081692, 1996064986, 2554220882,
   2821834349, 2952996808, 3210313671, 3336571891, 3584528711,
   113926993, 338241895, 666307205, 773529912, 1294757372,
   1396182291, 1695183700, 1986661051, 2177026350, 2456956037,
   2730485921, 2820302411, 3259730800, 3345764771, 3516065817,
   3600352804, 4094571909, 275423344, 430227734, 506948616,
   659060556, 883997877, 958139571, 1322822218, 1537002063,
   1747873779, 1955562222, 2024104815, 2227730452, 2361852424,
   2428436474, 2756734187, 3204031479, 3329325298]

/-- Eight big-endian bytes of a 64-bit value (the padded bit length). -/
def u64BE (n : Nat) : Bytes :=
  [n / 72057594037927936 % 256, n / 281474976710656 % 256,
   n / 1099511627776 % 256, n / 4294967296 % 256,
   n / 16777216 % 256, n / 65536 % 256, n / 256 % 256, n % 256]

/-- Four big-endian bytes of a 32-bit word. -/
def wordBE (w : Nat) : Bytes := [w / 16777216 % 256, w / 65536 % 256, w / 256 % 256, w % 256]

/-- SHA-256 padding: append `0x80`, zeros to 56 mod 64, and the 64-bit
big-endian bit length. -/
def sha256Pad (msg : Bytes) : Bytes :=
  msg ++ [0x80] ++ List.replicate ((119 - msg.length % 64) % 64) 0
      ++ u64BE (msg.length * 8)

/-- Split the first `n` 64-byte chunks off a byte string. -/
def toBlocksN : Nat → Bytes → List Bytes
  | 0, _ => []
  | n + 1, bs => bs.take 64 :: toBlocksN n (bs.drop 64)

/-- Split a byte string into 64-byte blocks (the padded input's length is
always a multiple of 64). -/
def toBlocks (bs : Bytes) : List Bytes := toBlocksN ((bs.length + 63) / 64) bs

/-- Big-endian 32-bit words of a block. -/
def toWords : Bytes → List Nat
  | b0 :: b1 :: b2 :: b3 :: rest => (((b0 * 256 + b1) * 256 + b2) * 256 + b3) :: toWords rest
  | _ => []

/-- First message-schedule sigma function. -/
def schedSigma0 (x : Nat) : Nat := rotr32 7 x ^^^ rotr32 18 x ^^^ (x >>> 3)

/-- Second message-schedule sigma function. -/
def schedSigma1 (x : Nat) : Nat := rotr32 17 x ^^^ rotr32 19 x ^^^ (x >>> 10)

/-- Append the next message-schedule word. -/
def scheduleStep (w : List Nat) : List Nat :=
  let n := w.length
  w ++ [(w.getD (n - 16) 0 + schedSigma0 (w.getD (n - 15) 0)
          + w.getD (n - 7) 0 + schedSigma1 (w.getD (n - 2) 0)) % 4294967296]

/-- The full 64-word message schedule from the 16 block words. -/
def sha256Schedule (w16 : List Nat) : List Nat := scheduleStep^[48] w16

/-- One SHA-256 compression round, consuming a (round constant, schedule word)
pair. -/
def sha256Round (st : Hash8) (kw : Nat × Nat) : Hash8 :=
  let s1 := rotr32 6 st.e ^^^ rotr32 11 st.e ^^^ rotr32 25 st.e
  let ch := (st.e &&& st.f) ^^^ ((st.e ^^^ 4294967295) &&& st.g)
  let t1 := (st.h + s1 + ch + kw.1 + kw.2) % 4294967296
  let s0 := rotr32 2 st.a ^^^ rotr32 13 st.a ^^^ rotr32 22 st.a
  let mj := (st.a &&& st.b) ^^^ (st.a &&& st.c) ^^^ (st.b &&& st.c)
  let t2 := (s0 + mj) % 4294967296
  ⟨(t1 + t2) % 4294967296, st.a, st.b, st.c,
   (st.d + t1) % 4294967296, st.e, st.f, st.g⟩

/-- Compress one 64-byte block into the running state. -/
def sha256Block (st : Hash8) (block : Bytes) : Hash8 :=
  let w := sha256Schedule (toWords block)
  let r := (sha256K.zip w).foldl sha256Round st
  ⟨(st.a + r.a) % 4294967296, (st.b + r.b) % 4294967296,
   (st.c + r.c) % 4294967296, (st.d + r.d) % 4294967296,
   (st.e + r.e) % 4294967296, (st.f + r.f) % 4294967296,
   (st.g + r.g) % 4294967296, (st.h + r.h) % 4294967296⟩

/-- SHA-256 of a byte string: the 32 digest bytes. -/
def sha256 (msg : Bytes) : Bytes :=
  let s := (toBlocks (sha256Pad msg)).foldl sha256Block sha256InitH
  wordBE s.a ++ wordBE s.b ++ wordBE s.c ++ wordBE s.d
    ++ wordBE s.e ++ wordBE s.f ++ wordBE s.g ++ wordBE s.h

/-! ## `utils.rs` -/

/-- The checksum of `utils.rs`: the first four bytes of the double SHA-256 of
the payload (`calculate_checksum`). -/
def calculate_checksum (data : Bytes) : Bytes := (sha256 (sha256 data)).take 4

/-- The varint writer's loop, with explicit fuel so that it is structurally
recursive; `value` itself is always enough fuel, the loop shrinking `value`
by a factor 128 each step. -/
def write_varint_fuel : Nat → Nat → Bytes
  | 0, value => [value % 256]
  | fuel + 1, value =>
    if value > 0x7F then ((value % 256) &&& 0x7F ||| 0x80) :: write_varint_fuel fuel (value >>> 7)
    else [value % 256]

/-- The varint writer of `utils.rs` (`write_varint`): little-endian base-128,
high bit marking continuation. -/
def write_varint (value : Nat) : Bytes := write_varint_fuel value value

/-! ## Decode errors

The spec's error taxonomy, mapped one-to-one onto the `ErrorKind` plus message
pairs the Rust code constructs: `UnexpectedEof` from a short `read_exact` is
`truncatedInput`; `InvalidData` with message "Invalid checksum" is
`checksumMismatch`; with "Unsupported protocol version",
`unsupportedProtocolVersion`; with "Invalid magic number in verack response",
`magicMismatch`; with "Invalid command in verack response",
`commandMismatch`. -/

inductive DecodeError where
  | truncatedInput
  | checksumMismatch
  | unsupportedProtocolVersion
  | magicMismatch
  | commandMismatch
deriving DecidableEq, Repr

/-- Take `n` bytes off the front of a byte string, as every
`read_exact` / `read_uXX` call on a cursor does; a short read is
`UnexpectedEof`, i.e. `truncatedInput`. -/
def readBytes (n : Nat) (bs : Bytes) : Except DecodeError (Bytes × Bytes) :=
  if bs.length < n then .error .truncatedInput else .ok (bs.take n, bs.drop n)

/-! ## `network.rs` -/

/-- The three Bitcoin networks (`BitcoinNetwork`). -/
inductive BitcoinNetwork where
  | mainnet
  | regtest
  | testnet3
deriving DecidableEq, Repr

/-- The 4-byte magic constant of each network (`BitcoinNetwork::magic`). -/
def BitcoinNetwork.magic : BitcoinNetwork → Bytes
  | .mainnet => [0xf9, 0xbe, 0xb4, 0xd9]
  | .regtest => [0xfa, 0xbf, 0xb5, 0xda]
  | .testnet3 => [0x0b, 0x11, 0x09, 0x07]

/-- The magic as a `u32` (`BitcoinNetwork::as_u32`, `u32::from_le_bytes`). -/
def BitcoinNetwork.as_u32 (n : BitcoinNetwork) : Nat := fromLEBytes n.magic

/-- A socket address: IPv4 as four octets plus port, IPv6 as eight 16-bit
segments plus port (`std::net::SocketAddr`; the flowinfo and scope fields
play no part in the codec). -/
inductive SocketAddr where
  | v4 (o1 o2 o3 o4 : Nat) (port : Nat)
  | v6 (s0 s1 s2 s3 s4 s5 s6 s7 : Nat) (port : Nat)
deriving DecidableEq, Repr

/-- The port of a socket address. -/
def SocketAddr.port : SocketAddr → Nat
  | .v4 _ _ _ _ p => p
  | .v6 _ _ _ _ _ _ _ _ p => p

/-- The address serializer of `network.rs` (`add_serialize_addr`): 8-byte
little-endian services, then the 16-byte IP — an IPv4 address in IPv4-mapped
IPv6 form (ten zero bytes, `0xff 0xff`, the four octets), an IPv6 address as
its eight segments each written `write_u16::<LittleEndian>` — then the port,
also written `write_u16::<LittleEndian>`. The function appends to the
caller's payload; here it returns the appended bytes. -/
def add_serialize_addr (services : Nat) (add : SocketAddr) : Bytes :=
  u64LE services ++
    (match add with
     | .v4 o1 o2 o3 o4 _ =>
         List.replicate 10 0 ++ [0xff, 0xff] ++ [o1, o2, o3, o4]
     | .v6 s0 s1 s2 s3 s4 s5 s6 s7 _ =>
         u16LE s0 ++ u16LE s1 ++ u16LE s2 ++ u16LE s3
           ++ u16LE s4 ++ u16LE s5 ++ u16LE s6 ++ u16LE s7) ++
    u16LE add.port

/-- The address reader of `network.rs` (`read_deserialized_add`): reads and
discards the 8 services bytes, reads the 16 IP bytes, detects the
IPv4-mapped pattern to build a V4 address, otherwise hands the 16 bytes to
`Ipv6Addr::from`, which pairs them big-endian into segments; the port is
read `read_u16::<LittleEndian>` in both branches. Returns the address and
the unconsumed tail of the cursor. -/
def read_deserialized_add (bs : Bytes) : Except DecodeError (SocketAddr × Bytes) :=
  match readBytes 8 bs with
  | .error e => .error e
  | .ok (_services, r1) =>
    match readBytes 16 r1 with
    | .error e => .error e
    | .ok (a, r2) =>
      if a.take 10 = List.replicate 10 0 ∧ a.getD 10 0 = 0xff ∧ a.getD 11 0 = 0xff then
        match readBytes 2 r2 with
        | .error e => .error e
        | .ok (p, r3) =>
          .ok (.v4 (a.getD 12 0) (a.getD 13 0) (a.getD 14 0) (a.getD 15 0)
                 (fromLEBytes p), r3)
      else
        match readBytes 2 r2 with
        | .error e => .error e
        | .ok (p, r3) =>
          .ok (.v6 (a.getD 0 0 * 256 + a.getD 1 0) (a.getD 2 0 * 256 + a.getD 3 0)
                 (a.getD 4 0 * 256 + a.getD 5 0) (a.getD 6 0 * 256 + a.getD 7 0)
                 (a.getD 8 0 * 256 + a.getD 9 0) (a.getD 10 0 * 256 + a.getD 11 0)
                 (a.getD 12 0 * 256 + a.getD 13 0) (a.getD 14 0 * 256 + a.getD 15 0)
                 (fromLEBytes p), r3)

/-! ## `vv.rs`: commands, version message, verack verification -/

/-- The minimum protocol version constant of `vv.rs` (`PROTOCOL_VERSION`). -/
def PROTOCOL_VERSION : Int := 70001

/-- The full-node services constant of `vv.rs` (`NODE_NETWORK_SERVICE`). -/
def NODE_NETWORK_SERVICE : Nat := 1

/-- The two protocol commands (`Command`). -/
inductive Command where
  | version
  | verack
deriving DecidableEq, Repr

/-- ASCII bytes of the command name (`Command::as_str` then `.as_bytes`). -/
def Command.asStrBytes : Command → Bytes
  | .version => [0x76, 0x65, 0x72, 0x73, 0x69, 0x6f, 0x6e]
  | .verack => [0x76, 0x65, 0x72, 0x61, 0x63, 0x6b]

/-- The 12-byte zero-padded command name (`Command::as_fixed_length_vec`).
The Rust function rejects names longer than 12 bytes; both commands of the
enum are shorter, so the error branch is unreachable and the function is
total here. -/
def Command.as_fixed_length_vec (c : Command) : Bytes :=
  c.asStrBytes ++ List.replicate (12 - c.asStrBytes.length) 0

/-- The fields of `VersionMessage` in `vv.rs`. `version`, `timestamp` and
`start_height` are `i32`/`i64`/`i32`, carried as `Int`. -/
structure VersionMessage where
  version : Int
  services : Nat
  timestamp : Int
  receiver : SocketAddr
  sender : SocketAddr
  nonce : Nat
  userAgent : String
  start_height : Int
  relay : Bool
deriving DecidableEq, Repr

/-- The serializer of `VersionMessage` in `vv.rs`: version, services,
timestamp, the two addresses, the nonce, then a single literal zero byte
(the code's "Allocation for the user agent" — the `userAgent` field itself
is never written), the start height, the relay byte, and one more literal
zero byte (the code's "Allocation for the relay"). -/
def VersionMessage.serialize (m : VersionMessage) : Bytes :=
  i32LE m.version ++ u64LE m.services ++ i64LE m.timestamp
    ++ add_serialize_addr m.services m.receiver
    ++ add_serialize_addr m.services m.sender
    ++ u64LE m.nonce ++ [0] ++ i32LE m.start_height
    ++ [if m.relay then 1 else 0] ++ [0]

/-- The part of the `VersionMessage` deserializer in `vv.rs` after the
version check: services, timestamp, the two addresses, one byte taken as
the user agent (stored as its decimal string, `u8::to_string`), the nonce,
the start height, and the relay byte (`> 0`). Split out of
`VersionMessage.deserialize` only so the tail can be reasoned about on its
own. -/
def VersionMessage.deserializeRest (version : Int) (r1 : Bytes) :
    Except DecodeError VersionMessage :=
  match readBytes 8 r1 with
  | .error e => .error e
  | .ok (sb, r2) =>
    match readBytes 8 r2 with
    | .error e => .error e
    | .ok (tb, r3) =>
      match read_deserialized_add r3 with
      | .error e => .error e
      | .ok (receiver, r4) =>
        match read_deserialized_add r4 with
        | .error e => .error e
        | .ok (sender, r5) =>
          match readBytes 1 r5 with
          | .error e => .error e
          | .ok (ub, r6) =>
            match readBytes 8 r6 with
            | .error e => .error e
            | .ok (nb, r7) =>
              match readBytes 4 r7 with
              | .error e => .error e
              | .ok (hb, r8) =>
                match readBytes 1 r8 with
                | .error e => .error e
                | .ok (rb, _) =>
                  .ok ⟨version, fromLEBytes sb, i64fromLE tb, receiver, sender,
                       fromLEBytes nb, toString (ub.getD 0 0),
                       i32fromLE hb, fromLEBytes rb > 0⟩

/-- The deserializer of `VersionMessage` in `vv.rs`: reads the version and
rejects it below `PROTOCOL_VERSION`, then continues with
`VersionMessage.deserializeRest`. -/
def VersionMessage.deserialize (msg : Bytes) : Except DecodeError VersionMessage :=
  match readBytes 4 msg with
  | .error e => .error e
  | .ok (vb, r1) =>
    let version := i32fromLE vb
    if version < PROTOCOL_VERSION then .error .unsupportedProtocolVersion
    else VersionMessage.deserializeRest version r1

/-- The fields of `VerackMessage` in `vv.rs`. -/
structure VerackMessage where
  magic : Nat
  command : Bytes
  length : Nat
  checksum : Nat
deriving DecidableEq, Repr

/-- The reply checker of `vv.rs` (`VerackMessage::deserialize_and_verify`):
reads the magic and rejects a value other than the expected network's, reads
the 12 command bytes and rejects them unless they equal the expected
command's padded name, then reads the length and the checksum without
checking them. -/
def VerackMessage.deserialize_and_verify (msg : Bytes) (network : BitcoinNetwork)
    (resp_command : Command) : Except DecodeError VerackMessage :=
  match readBytes 4 msg with
  | .error e => .error e
  | .ok (mb, r1) =>
    let magic := fromLEBytes mb
    if magic ≠ network.as_u32 then .error .magicMismatch
    else
      match readBytes 12 r1 with
      | .error e => .error e
      | .ok (cb, r2) =>
        if cb ≠ resp_command.as_fixed_length_vec then .error .commandMismatch
        else
          match readBytes 4 r2 with
          | .error e => .error e
          | .ok (lb, r3) =>
            match readBytes 4 r3 with
            | .error e => .error e
            | .ok (kb, _) =>
              .ok ⟨magic, cb, fromLEBytes lb, fromLEBytes kb⟩

/-! ## `messages.rs`: the message envelope -/

/-- The fields of `BitcoinMessage` in `messages.rs`. `checksum` is a `u32`
(the Rust code stores `u32::from_ne_bytes` of the four checksum bytes; the
target is little-endian, so this is the little-endian value). -/
structure BitcoinMessage where
  magic : Nat
  command : Bytes
  length : Nat
  checksum : Nat
  payload : Bytes
deriving DecidableEq, Repr

/-- The envelope constructor (`BitcoinMessage::new`): the network's magic as
`u32`, the padded command, the payload length as `u32` (`as u32` truncates),
and the checksum of the payload. -/
def BitcoinMessage.new (command : Command) (payload : Bytes)
    (network : BitcoinNetwork) : BitcoinMessage :=
  ⟨network.as_u32, command.as_fixed_length_vec, payload.length % 4294967296,
   fromLEBytes (calculate_checksum payload), payload⟩

/-- The envelope serializer (`Serializable::serialize` for `BitcoinMessage`):
little-endian magic, the 12 command bytes, little-endian length,
little-endian checksum, then the payload. -/
def BitcoinMessage.serialize (m : BitcoinMessage) : Bytes :=
  u32LE m.magic ++ m.command ++ u32LE m.length ++ u32LE m.checksum ++ m.payload

/-- The envelope deserializer (`Serializable::deserialize` for
`BitcoinMessage`): reads the magic, the 12 command bytes, the length, the 4
stored checksum bytes, then exactly `length` payload bytes; recomputes the
checksum of the extracted payload and rejects the message when it differs
from the stored bytes; no validation of magic or command. -/
def BitcoinMessage.deserialize (msg : Bytes) : Except DecodeError BitcoinMessage :=
  match readBytes 4 msg with
  | .error e => .error e
  | .ok (mb, r1) =>
    match readBytes 12 r1 with
    | .error e => .error e
    | .ok (cb, r2) =>
      match readBytes 4 r2 with
      | .error e => .error e
      | .ok (lb, r3) =>
        let payload_size := fromLEBytes lb
        match readBytes 4 r3 with
        | .error e => .error e
        | .ok (kb, r4) =>
          match readBytes payload_size r4 with
          | .error e => .error e
          | .ok (payload, _) =>
            if kb ≠ calculate_checksum payload then .error .checksumMismatch
            else
              .ok ⟨fromLEBytes mb, cb, payload_size, fromLEBytes kb, payload⟩

/-! ## `handshake.rs`: the reply phase of `perform_handshake`

The function does I/O; its pure content after the 24-byte reply read is the
decision it takes on the read's result. The model maps each outcome of
`stream.read_exact(&mut res_version_msg)` to what the code then does: on a
successful read it calls `VerackMessage::deserialize_and_verify(..).unwrap()`
— a panic on any error, reached before the `stream.shutdown` line — and on
a read error of any kind it only logs, shuts the stream down and returns
`Ok(())`. -/

deriving instance DecidableEq for Except

/-- The `ErrorKind`s the reply read can produce, as matched by the code. -/
inductive ReadErrorKind where
  | unexpectedEof
  | wouldBlock
  | otherErr
deriving DecidableEq, Repr

/-- The result of `stream.read_exact` on the 24-byte reply buffer. -/
inductive ReadExactResult where
  | ok (bytes : Bytes)
  | err (kind : ReadErrorKind)
deriving DecidableEq, Repr

/-- How `perform_handshake` ends, seen from its caller: either the process
panics (an `unwrap` on an error), or the function returns a value, having
shut the stream down or not. -/
inductive HandshakeOutcome where
  | panicked
  | returned (result : Except DecodeError Unit) (shutdownDone : Bool)
deriving DecidableEq, Repr

/-- The reply phase of `perform_handshake` in `handshake.rs` (the code from
the `match stream.read_exact(..)` through the function's end), as a function
of the reply read's result. -/
def perform_handshake_reply (network : BitcoinNetwork)
    (readResult : ReadExactResult) : HandshakeOutcome :=
  match readResult with
  | .ok bytes =>
    match VerackMessage.deserialize_and_verify bytes network Command.version with
    | .ok _ => .returned (.ok ()) true
    | .error _ => .panicked
  | .err _ => .returned (.ok ()) true

/-! ## Spec-modelled reference encoder

The specification describes the version payload as carrying the user agent,
varint-length-prefixed, directly before the start height, with the relay
flag last. This definition follows the spec's words; the claims compare it
against `VersionMessage.serialize`, which is translated from the source. -/

/-- UTF-8 encoding of one unicode scalar value. -/
def utf8Encode (c : Nat) : Bytes :=
  if c < 0x80 then [c]
  else if c < 0x800 then
    [0xC0 ||| (c >>> 6), 0x80 ||| (c &&& 0x3F)]
  else if c < 0x10000 then
    [0xE0 ||| (c >>> 12), 0x80 ||| ((c >>> 6) &&& 0x3F), 0x80 ||| (c &&& 0x3F)]
  else
    [0xF0 ||| (c >>> 18), 0x80 ||| ((c >>> 12) &&& 0x3F),
     0x80 ||| ((c >>> 6) &&& 0x3F), 0x80 ||| (c &&& 0x3F)]

/-- UTF-8 bytes of the user agent string (Rust `String::as_bytes`). -/
def userAgentBytes (s : String) : Bytes :=
  (s.data.map (fun c => utf8Encode c.toNat)).flatten

/-- The version payload as the spec words it: protocol version, services,
timestamp, receiver address, sender address, nonce, varint-length-prefixed
user agent bytes, start height, one relay byte — nothing after it. -/
def specVersionEncode (m : VersionMessage) : Bytes :=
  i32LE m.version ++ u64LE m.services ++ i64LE m.timestamp
    ++ add_serialize_addr m.services m.receiver
    ++ add_serialize_addr m.services m.sender
    ++ u64LE m.nonce
    ++ write_varint (userAgentBytes m.userAgent).length
    ++ userAgentBytes m.userAgent
    ++ i32LE m.start_height ++ [if m.relay then 1 else 0]

/-! ## Helper lemmas: lengths -/

@[simp] lemma length_u16LE (n : Nat) : (u16LE n).length = 2 := rfl

@[simp] lemma length_u32LE (n : Nat) : (u32LE n).length = 4 := rfl

@[simp] lemma length_u64LE (n : Nat) : (u64LE n).length = 8 := rfl

@[simp] lemma length_i32LE (v : Int) : (i32LE v).length = 4 := rfl

@[simp] lemma length_i64LE (v : Int) : (i64LE v).length = 8 := rfl

@[simp] lemma length_as_fixed_length_vec (c : Command) :
    (c.as_fixed_length_vec).length = 12 := by cases c <;> rfl

@[simp] lemma length_magic (net : BitcoinNetwork) : net.magic.length = 4 := by
  cases net <;> rfl

@[simp] lemma length_add_serialize_addr (services : Nat) (add : SocketAddr) :
    (add_serialize_addr services add).length = 26 := by
  cases add <;> simp [add_serialize_addr]

/-! ## Helper lemmas: little-endian round trips -/

lemma fromLEBytes_u16LE (p : Nat) (hp : p < 65536) : fromLEBytes (u16LE p) = p := by
  simp [fromLEBytes, u16LE]; omega

lemma fromLEBytes_u32LE (n : Nat) (hn : n < 4294967296) : fromLEBytes (u32LE n) = n := by
  simp [fromLEBytes, u32LE]; omega

lemma fromLEBytes_u64LE (n : Nat) (hn : n < 18446744073709551616) :
    fromLEBytes (u64LE n) = n := by
  simp [fromLEBytes, u64LE]; omega

lemma u32LE_mod (n : Nat) : u32LE (n % 4294967296) = u32LE n := by
  simp only [u32LE, List.cons.injEq, and_true]
  refine ⟨?_, ?_, ?_, ?_⟩ <;> omega

lemma u32LE_fromLEBytes_four (b0 b1 b2 b3 : Nat) (h0 : b0 < 256) (h1 : b1 < 256)
    (h2 : b2 < 256) (h3 : b3 < 256) :
    u32LE (fromLEBytes [b0, b1, b2, b3]) = [b0, b1, b2, b3] := by
  simp only [fromLEBytes, u32LE, List.cons.injEq, and_true]
  refine ⟨?_, ?_, ?_, ?_⟩ <;> omega

lemma i32fromLE_i32LE (v : Int) (h1 : -2147483648 ≤ v) (h2 : v < 2147483648) :
    i32fromLE (i32LE v) = v := by
  simp only [i32LE, i32fromLE]
  rw [fromLEBytes_u32LE _ (by omega)]
  omega

lemma i64fromLE_i64LE (v : Int) (h1 : -9223372036854775808 ≤ v)
    (h2 : v < 9223372036854775808) : i64fromLE (i64LE v) = v := by
  simp only [i64LE, i64fromLE]
  rw [fromLEBytes_u64LE _ (by omega)]
  omega

/-! ## Helper lemmas: checksum shape -/

lemma calculate_checksum_eq_wordBE (data : Bytes) :
    calculate_checksum data =
      wordBE ((toBlocks (sha256Pad (sha256 data))).foldl sha256Block sha256InitH).a := rfl

@[simp] lemma length_calculate_checksum (data : Bytes) :
    (calculate_checksum data).length = 4 := by
  rw [calculate_checksum_eq_wordBE]; rfl

lemma u32LE_fromLEBytes_checksum (data : Bytes) :
    u32LE (fromLEBytes (calculate_checksum data)) = calculate_checksum data := by
  rw [calculate_checksum_eq_wordBE, wordBE]
  exact u32LE_fromLEBytes_four _ _ _ _ (Nat.mod_lt _ (by norm_num))
    (Nat.mod_lt _ (by norm_num)) (Nat.mod_lt _ (by norm_num)) (Nat.mod_lt _ (by norm_num))

/-! ## Helper lemmas: cursor reads -/

lemma readBytes_exact (n : Nat) (a b : Bytes) (h : a.length = n) :
    readBytes n (a ++ b) = .ok (a, b) := by
  subst h
  simp [readBytes, List.take_left, List.drop_left]

lemma readBytes_error {n : Nat} {bs : Bytes} {e : DecodeError}
    (h : readBytes n bs = .error e) : e = .truncatedInput ∧ bs.length < n := by
  unfold readBytes at h
  split at h
  · exact ⟨(Except.error.injEq _ _).mp h |>.symm, by assumption⟩
  · cases h

lemma readBytes_short {n : Nat} {bs : Bytes} (h : bs.length < n) :
    readBytes n bs = .error .truncatedInput := by
  simp [readBytes, h]

lemma read_deserialized_add_error {bs : Bytes} {e : DecodeError}
    (h : read_deserialized_add bs = .error e) : e = .truncatedInput := by
  unfold read_deserialized_add at h
  cases h8 : readBytes 8 bs with
  | error e1 =>
    simp only [h8] at h
    cases h
    exact (readBytes_error h8).1
  | ok pr1 =>
    obtain ⟨s, r1⟩ := pr1
    simp only [h8] at h
    cases h16 : readBytes 16 r1 with
    | error e2 =>
      simp only [h16] at h
      cases h
      exact (readBytes_error h16).1
    | ok pr2 =>
      obtain ⟨a, r2⟩ := pr2
      simp only [h16] at h
      split at h
      all_goals
        cases h2 : readBytes 2 r2 with
        | error e3 =>
          simp only [h2] at h
          cases h
          exact (readBytes_error h2).1
        | ok pr3 =>
          obtain ⟨p, r3⟩ := pr3
          simp only [h2] at h
          cases h

/-! ## Helper lemmas: address codec round trips -/

/-- Byte swap of a 16-bit value: what the decoder's big-endian pairing does
to a segment the encoder wrote little-endian. -/
def bswap16 (s : Nat) : Nat := s % 256 * 256 + s / 256

lemma read_add_v4 (services o1 o2 o3 o4 p : Nat) (rest : Bytes) (hp : p < 65536) :
    read_deserialized_add (add_serialize_addr services (.v4 o1 o2 o3 o4 p) ++ rest)
      = .ok (.v4 o1 o2 o3 o4 p, rest) := by
  show read_deserialized_add
      (u64LE services
        ++ (([0, 0, 0, 0, 0, 0, 0, 0, 0, 0, 0xff, 0xff, o1, o2, o3, o4] : Bytes)
          ++ (u16LE p ++ rest)))
    = .ok (.v4 o1 o2 o3 o4 p, rest)
  have h1 := readBytes_exact 8 (u64LE services)
    (([0, 0, 0, 0, 0, 0, 0, 0, 0, 0, 0xff, 0xff, o1, o2, o3, o4] : Bytes)
      ++ (u16LE p ++ rest)) (length_u64LE services)
  have h2 := readBytes_exact 16
    ([0, 0, 0, 0, 0, 0, 0, 0, 0, 0, 0xff, 0xff, o1, o2, o3, o4] : Bytes)
    (u16LE p ++ rest) rfl
  have h3 := readBytes_exact 2 (u16LE p) rest (length_u16LE p)
  simp only [read_deserialized_add, h1, h2, h3]
  rw [if_pos ⟨rfl, rfl, rfl⟩]
  rw [fromLEBytes_u16LE p hp]
  rfl

lemma read_add_v6 (services s0 s1 s2 s3 s4 s5 s6 s7 p : Nat) (rest : Bytes)
    (h0 : s0 < 65536) (h1 : s1 < 65536) (h2 : s2 < 65536) (h3 : s3 < 65536)
    (h4 : s4 < 65536) (h5 : s5 < 65536) (h6 : s6 < 65536) (h7 : s7 < 65536)
    (hp : p < 65536)
    (hnot : ¬(s0 = 0 ∧ s1 = 0 ∧ s2 = 0 ∧ s3 = 0 ∧ s4 = 0 ∧ s5 = 65535)) :
    read_deserialized_add
        (add_serialize_addr services (.v6 s0 s1 s2 s3 s4 s5 s6 s7 p) ++ rest)
      = .ok (.v6 (bswap16 s0) (bswap16 s1) (bswap16 s2) (bswap16 s3)
               (bswap16 s4) (bswap16 s5) (bswap16 s6) (bswap16 s7) p, rest) := by
  show read_deserialized_add
      (u64LE services
        ++ (([s0 % 256, s0 / 256 % 256, s1 % 256, s1 / 256 % 256,
              s2 % 256, s2 / 256 % 256, s3 % 256, s3 / 256 % 256,
              s4 % 256, s4 / 256 % 256, s5 % 256, s5 / 256 % 256,
              s6 % 256, s6 / 256 % 256, s7 % 256, s7 / 256 % 256] : Bytes)
          ++ (u16LE p ++ rest)))
    = _
  have e1 := readBytes_exact 8 (u64LE services)
    (([s0 % 256, s0 / 256 % 256, s1 % 256, s1 / 256 % 256,
       s2 % 256, s2 / 256 % 256, s3 % 256, s3 / 256 % 256,
       s4 % 256, s4 / 256 % 256, s5 % 256, s5 / 256 % 256,
       s6 % 256, s6 / 256 % 256, s7 % 256, s7 / 256 % 256] : Bytes)
      ++ (u16LE p ++ rest)) (length_u64LE services)
  have e2 := readBytes_exact 16
    ([s0 % 256, s0 / 256 % 256, s1 % 256, s1 / 256 % 256,
      s2 % 256, s2 / 256 % 256, s3 % 256, s3 / 256 % 256,
      s4 % 256, s4 / 256 % 256, s5 % 256, s5 / 256 % 256,
      s6 % 256, s6 / 256 % 256, s7 % 256, s7 / 256 % 256] : Bytes)
    (u16LE p ++ rest) rfl
  have e3 := readBytes_exact 2 (u16LE p) rest (length_u16LE p)
  simp only [read_deserialized_add, e1, e2, e3]
  rw [if_neg]
  · show Except.ok
        (SocketAddr.v6 (s0 % 256 * 256 + s0 / 256 % 256) (s1 % 256 * 256 + s1 / 256 % 256)
          (s2 % 256 * 256 + s2 / 256 % 256) (s3 % 256 * 256 + s3 / 256 % 256)
          (s4 % 256 * 256 + s4 / 256 % 256) (s5 % 256 * 256 + s5 / 256 % 256)
          (s6 % 256 * 256 + s6 / 256 % 256) (s7 % 256 * 256 + s7 / 256 % 256)
          (fromLEBytes (u16LE p)), rest) = _
    rw [fromLEBytes_u16LE p hp]
    simp only [Except.ok.injEq, Prod.mk.injEq, SocketAddr.v6.injEq, bswap16, and_true]
    refine ⟨?_, ?_, ?_, ?_, ?_, ?_, ?_, ?_⟩ <;> omega
  · intro hcond
    obtain ⟨ha, hb, hc⟩ := hcond
    have ha' : ([s0 % 256, s0 / 256 % 256, s1 % 256, s1 / 256 % 256,
                 s2 % 256, s2 / 256 % 256, s3 % 256, s3 / 256 % 256,
                 s4 % 256, s4 / 256 % 256] : Bytes)
        = [0, 0, 0, 0, 0, 0, 0, 0, 0, 0] := ha
    have hb' : s5 % 256 = 255 := hb
    have hc' : s5 / 256 % 256 = 255 := hc
    simp only [List.cons.injEq, and_true] at ha'
    omega

/-! ## Helper lemmas: envelope decoding in closed form -/

/-- The length the envelope's header declares: the little-endian value of
bytes 16 to 19. -/
def declaredLen (msg : Bytes) : Nat := fromLEBytes ((msg.drop 16).take 4)

/-- The four stored checksum bytes of an envelope: bytes 20 to 23. -/
def storedChecksum (msg : Bytes) : Bytes := (msg.drop 20).take 4

/-- The payload an envelope carries: `declaredLen` bytes from offset 24. -/
def declaredPayload (msg : Bytes) : Bytes := (msg.drop 24).take (declaredLen msg)

lemma readBytes_ok {n : Nat} {bs : Bytes} (h : ¬bs.length < n) :
    readBytes n bs = .ok (bs.take n, bs.drop n) := by
  simp [readBytes, h]

lemma BitcoinMessage.deserialize_eq (msg : Bytes) :
    BitcoinMessage.deserialize msg =
      if msg.length < 24 + declaredLen msg then .error .truncatedInput
      else if storedChecksum msg ≠ calculate_checksum (declaredPayload msg) then
        .error .checksumMismatch
      else
        .ok ⟨fromLEBytes (msg.take 4), (msg.drop 4).take 12, declaredLen msg,
             fromLEBytes (storedChecksum msg), declaredPayload msg⟩ := by
  unfold BitcoinMessage.deserialize
  by_cases c4 : msg.length < 4
  · simp only [readBytes_short c4]
    rw [if_pos (by omega)]
  · simp only [readBytes_ok c4]
    by_cases c16 : msg.length < 16
    · rw [readBytes_short (by simp; omega)]
      rw [if_pos (by omega)]
    · rw [readBytes_ok (show ¬(msg.drop 4).length < 12 by simp; omega)]
      simp only [List.drop_drop]
      by_cases c20 : msg.length < 20
      · rw [readBytes_short (by simp; omega)]
        rw [if_pos (by omega)]
      · rw [readBytes_ok (show ¬(msg.drop (12 + 4)).length < 4 by simp; omega)]
        simp only [List.drop_drop]
        by_cases c24 : msg.length < 24
        · rw [readBytes_short (by simp; omega)]
          rw [if_pos (by omega)]
        · rw [readBytes_ok (show ¬(msg.drop (4 + (12 + 4))).length < 4 by simp; omega)]
          simp only [List.drop_drop]
          by_cases cp : (msg.drop (4 + (4 + (12 + 4)))).length
              < fromLEBytes ((msg.drop (12 + 4)).take 4)
          · rw [readBytes_short cp]
            rw [if_pos (by simp at cp; simp [declaredLen]; omega)]
          · rw [readBytes_ok cp]
            rw [if_neg (by simp at cp; simp [declaredLen]; omega)]
            simp only [declaredLen, declaredPayload, storedChecksum]

/-! ## Helper lemmas: version message -/

lemma magic_u32LE (net : BitcoinNetwork) : u32LE (fromLEBytes net.magic) = net.magic := by
  cases net <;> rfl

lemma drop_chunk {a b : Bytes} (n k : Nat) (h : a.length = n) :
    (a ++ b).drop (n + k) = b.drop k := by
  subst h; exact List.drop_append k

lemma fromLEBytes_nonce_tail (n : Nat) (hn : n < 18446744073709551616) :
    fromLEBytes [n / 256 % 256, n / 65536 % 256, n / 16777216 % 256,
      n / 4294967296 % 256, n / 1099511627776 % 256, n / 281474976710656 % 256,
      n / 72057594037927936 % 256, 0] = n / 256 := by
  simp [fromLEBytes]; omega

lemma relay_decode (r : Bool) :
    decide (fromLEBytes [if r then 1 else 0] > 0) = r := by
  cases r <;> rfl

lemma VersionMessage.serialize_length (m : VersionMessage) :
    (VersionMessage.serialize m).length = 87 := by
  simp [VersionMessage.serialize]

lemma VersionMessage.deserializeRest_error {version : Int} {r1 : Bytes} {e : DecodeError}
    (h : VersionMessage.deserializeRest version r1 = .error e) : e = .truncatedInput := by
  unfold VersionMessage.deserializeRest at h
  cases hA : readBytes 8 r1 with
  | error eA => simp only [hA] at h; cases h; exact (readBytes_error hA).1
  | ok prA =>
  obtain ⟨sb, r2⟩ := prA
  simp only [hA] at h
  cases hB : readBytes 8 r2 with
  | error eB => simp only [hB] at h; cases h; exact (readBytes_error hB).1
  | ok prB =>
  obtain ⟨tb, r3⟩ := prB
  simp only [hB] at h
  cases hC : read_deserialized_add r3 with
  | error eC => simp only [hC] at h; cases h; exact read_deserialized_add_error hC
  | ok prC =>
  obtain ⟨receiver, r4⟩ := prC
  simp only [hC] at h
  cases hD : read_deserialized_add r4 with
  | error eD => simp only [hD] at h; cases h; exact read_deserialized_add_error hD
  | ok prD =>
  obtain ⟨sender, r5⟩ := prD
  simp only [hD] at h
  cases hE : readBytes 1 r5 with
  | error eE => simp only [hE] at h; cases h; exact (readBytes_error hE).1
  | ok prE =>
  obtain ⟨ub, r6⟩ := prE
  simp only [hE] at h
  cases hF : readBytes 8 r6 with
  | error eF => simp only [hF] at h; cases h; exact (readBytes_error hF).1
  | ok prF =>
  obtain ⟨nb, r7⟩ := prF
  simp only [hF] at h
  cases hG : readBytes 4 r7 with
  | error eG => simp only [hG] at h; cases h; exact (readBytes_error hG).1
  | ok prG =>
  obtain ⟨hb, r8⟩ := prG
  simp only [hG] at h
  cases hH : readBytes 1 r8 with
  | error eH => simp only [hH] at h; cases h; exact (readBytes_error hH).1
  | ok prH =>
  obtain ⟨rb, r9⟩ := prH
  simp only [hH] at h
  cases h

/-! ## Concrete inputs used by witnesses and counterexamples -/

/-- A 25-byte envelope whose header declares a 1-byte payload `[7]` but
whose stored checksum bytes are all zero — a tampered checksum. -/
def tamperedEnvelope : Bytes :=
  BitcoinNetwork.mainnet.magic ++ Command.version.as_fixed_length_vec
    ++ u32LE 1 ++ [0, 0, 0, 0] ++ [7]

/-- A 24-byte reply of zeros: its magic field is `0`, which matches no
network. -/
def wrongMagicReply : Bytes := List.replicate 24 0

/-! ## Claims -/

/-- Claim C1: for every command, network and payload, serializing the
envelope built from them yields exactly the network's 4-byte magic, the
command's ASCII name zero-padded to 12 bytes, the payload length as a
little-endian `u32`, the first 4 bytes of the double SHA-256 of the
payload, and the payload itself, concatenated in that order. -/
theorem claim_C1_envelope_layout (c : Command) (net : BitcoinNetwork) (p : Bytes) :
    BitcoinMessage.serialize (BitcoinMessage.new c p net)
      = net.magic ++ c.as_fixed_length_vec ++ u32LE p.length
        ++ (sha256 (sha256 p)).take 4 ++ p := by
  show u32LE (fromLEBytes net.magic) ++ c.as_fixed_length_vec
      ++ u32LE (p.length % 4294967296) ++ u32LE (fromLEBytes (calculate_checksum p)) ++ p
    = _
  rw [magic_u32LE, u32LE_mod, u32LE_fromLEBytes_checksum]
  rfl

/-- Claim C1 witness: the layout at a concrete command, network and
payload. -/
theorem claim_C1_envelope_layout_witness :
    BitcoinMessage.serialize (BitcoinMessage.new Command.version [0xef, 0xab, 0xef, 0xdf]
        BitcoinNetwork.testnet3)
      = BitcoinNetwork.testnet3.magic ++ Command.version.as_fixed_length_vec
        ++ u32LE 4 ++ (sha256 (sha256 [0xef, 0xab, 0xef, 0xdf])).take 4
        ++ [0xef, 0xab, 0xef, 0xdf] :=
  claim_C1_envelope_layout Command.version BitcoinNetwork.testnet3 [0xef, 0xab, 0xef, 0xdf]

/-- Claim C2: envelope decoding fails with `truncatedInput` exactly when the
input is shorter than the 24-byte header plus the declared payload length;
it fails with `checksumMismatch` exactly when the input is long enough but
the stored checksum bytes differ from the recomputed double-SHA-256 checksum
of the extracted payload (so any tampering with the stored checksum of a
well-formed envelope is caught); no other error is ever produced — an
unknown magic or command is accepted — and a successfully decoded message
always carries a payload whose recomputed checksum equals the stored one,
so the payload is validated before anyone else sees it. -/
theorem claim_C2_envelope_decode_errors (msg : Bytes) :
    (BitcoinMessage.deserialize msg = .error .truncatedInput
        ↔ msg.length < 24 + declaredLen msg)
    ∧ (BitcoinMessage.deserialize msg = .error .checksumMismatch
        ↔ 24 + declaredLen msg ≤ msg.length
          ∧ storedChecksum msg ≠ calculate_checksum (declaredPayload msg))
    ∧ (∀ e, BitcoinMessage.deserialize msg = .error e
        → e = .truncatedInput ∨ e = .checksumMismatch)
    ∧ (∀ m, BitcoinMessage.deserialize msg = .ok m
        → m.checksum = fromLEBytes (calculate_checksum m.payload)) := by
  rw [BitcoinMessage.deserialize_eq]
  split_ifs with h1 h2
  · exact ⟨iff_of_true rfl h1,
      iff_of_false (by simp) (fun hc => by omega),
      fun e he => Or.inl (by cases he; rfl),
      fun m hm => absurd hm (by simp)⟩
  · exact ⟨iff_of_false (by simp) (by omega),
      iff_of_true rfl ⟨by omega, h2⟩,
      fun e he => Or.inr (by cases he; rfl),
      fun m hm => absurd hm (by simp)⟩
  · refine ⟨iff_of_false (by simp) (by omega),
      iff_of_false (by simp) (fun hc => hc.2 (not_not.mp h2)),
      fun e he => absurd he (by simp),
      fun m hm => ?_⟩
    cases hm
    simpa using congrArg fromLEBytes (not_not.mp h2)

set_option maxRecDepth 100000 in
/-- Claim C2 witness: a concrete envelope with a tampered (all-zero) stored
checksum decodes to `checksumMismatch`. -/
theorem claim_C2_envelope_decode_errors_witness :
    BitcoinMessage.deserialize tamperedEnvelope = .error .checksumMismatch :=
  (claim_C2_envelope_decode_errors tamperedEnvelope).2.1.mpr (by decide)

/-- Claim C9: decoding a version payload fails with
`unsupportedProtocolVersion` exactly when at least four bytes are present
and the signed little-endian value of the first four is strictly below the
constant `PROTOCOL_VERSION = 70001`; at or above the floor, decoding
proceeds to the remaining fields (any later failure is `truncatedInput`,
never `unsupportedProtocolVersion`). -/
theorem claim_C9_version_floor (msg : Bytes) :
    VersionMessage.deserialize msg = .error .unsupportedProtocolVersion
      ↔ 4 ≤ msg.length ∧ i32fromLE (msg.take 4) < PROTOCOL_VERSION := by
  unfold VersionMessage.deserialize
  by_cases c4 : msg.length < 4
  · rw [readBytes_short c4]
    exact iff_of_false (by simp) (by omega)
  · simp only [readBytes_ok c4]
    by_cases hv : i32fromLE (msg.take 4) < PROTOCOL_VERSION
    · rw [if_pos hv]
      exact iff_of_true rfl ⟨by omega, hv⟩
    · rw [if_neg hv]
      refine iff_of_false (fun h => ?_) (fun hc => hv hc.2)
      exact absurd (VersionMessage.deserializeRest_error h) (by simp)

/-- Claim C5: a 24-byte reply whose magic does not match the expected
network makes `deserialize_and_verify` return the magic-mismatch error, but
`perform_handshake` calls `.unwrap()` on that result, so the attempt ends in
a panic — the error is never returned to the caller and the
`stream.shutdown` call is never reached. -/
theorem claim_C5_wrong_magic_panics :
    VerackMessage.deserialize_and_verify wrongMagicReply BitcoinNetwork.mainnet
        Command.version = .error .magicMismatch
    ∧ perform_handshake_reply BitcoinNetwork.mainnet (.ok wrongMagicReply)
        = .panicked := by decide

/-- Claim C6 counterexample: when the reply read fails with
`UnexpectedEof` (the stream closed after 10 of the 24 header bytes),
`perform_handshake` returns `Ok(())` with the stream shut down — it does
not report the attempt as failed with a truncated-input error. -/
theorem claim_C6_counterexample :
    perform_handshake_reply BitcoinNetwork.mainnet (.err .unexpectedEof)
        = .returned (.ok ()) true
    ∧ perform_handshake_reply BitcoinNetwork.mainnet (.err .unexpectedEof)
        ≠ .returned (.error .truncatedInput) true := by decide

/-- Claim C6 amended: a reply read error of any kind (in particular the
`UnexpectedEof` of a stream that closed after 10 header bytes) does not
panic and still shuts the stream down, but the attempt is reported to the
caller as success (`Ok(())`); the error is only logged. -/
theorem claim_C6_amended (net : BitcoinNetwork) (k : ReadErrorKind) :
    perform_handshake_reply net (.err k) = .returned (.ok ()) true := rfl

/-- Claim C7: the address serializer writes the 2-byte port field
little-endian, for IPv4 and IPv6 alike — port 8333 = 0x208d comes out as
`8d 20`, not the big-endian `20 8d` the protocol prescribes. -/
theorem claim_C7_port_little_endian :
    (∀ (services : Nat) (add : SocketAddr),
      (add_serialize_addr services add).drop 24 = u16LE add.port)
    ∧ (add_serialize_addr 1 (.v4 127 0 0 1 8333)).drop 24 = [0x8d, 0x20]
    ∧ (add_serialize_addr 1 (.v6 0 0 0 0 0 0 0 1 8333)).drop 24 = [0x8d, 0x20]
    ∧ ([0x8d, 0x20] : Bytes) ≠ [0x20, 0x8d] := by
  refine ⟨fun services add => ?_, by decide, by decide, by decide⟩
  cases add <;> rfl

/-- Claim C8 counterexample: encoding the IPv6 address `::1` (with any
services value) and decoding the result does not return `::1`: the decoder
pairs the little-endian-written segment bytes big-endian, so the last
segment comes back as 256; the services bitmask is not returned at all. -/
theorem claim_C8_counterexample :
    read_deserialized_add (add_serialize_addr 0 (.v6 0 0 0 0 0 0 0 1 7))
        = .ok (.v6 0 0 0 0 0 0 0 256 7, [])
    ∧ SocketAddr.v6 0 0 0 0 0 0 0 256 7 ≠ .v6 0 0 0 0 0 0 0 1 7 := by decide

/-- Claim C8 amended: decoding the 26 bytes produced by encoding an IPv4
address reconstructs the exact IP and port (the services bitmask is read
but discarded — the decoder returns only the address); for a native IPv6
address whose segments do not mimic the IPv4-mapped pattern, decoding
reconstructs the port but returns every 16-bit segment byte-swapped,
because the encoder writes segments little-endian while the decoder pairs
the bytes big-endian. -/
theorem claim_C8_address_roundtrip :
    (∀ (services o1 o2 o3 o4 p : Nat) (rest : Bytes), p < 65536 →
      read_deserialized_add (add_serialize_addr services (.v4 o1 o2 o3 o4 p) ++ rest)
        = .ok (.v4 o1 o2 o3 o4 p, rest))
    ∧ (∀ (services s0 s1 s2 s3 s4 s5 s6 s7 p : Nat) (rest : Bytes),
        s0 < 65536 → s1 < 65536 → s2 < 65536 → s3 < 65536 →
        s4 < 65536 → s5 < 65536 → s6 < 65536 → s7 < 65536 → p < 65536 →
        ¬(s0 = 0 ∧ s1 = 0 ∧ s2 = 0 ∧ s3 = 0 ∧ s4 = 0 ∧ s5 = 65535) →
        read_deserialized_add
            (add_serialize_addr services (.v6 s0 s1 s2 s3 s4 s5 s6 s7 p) ++ rest)
          = .ok (.v6 (bswap16 s0) (bswap16 s1) (bswap16 s2) (bswap16 s3)
                   (bswap16 s4) (bswap16 s5) (bswap16 s6) (bswap16 s7) p, rest)) :=
  ⟨fun services o1 o2 o3 o4 p rest hp => read_add_v4 services o1 o2 o3 o4 p rest hp,
   fun services s0 s1 s2 s3 s4 s5 s6 s7 p rest h0 h1 h2 h3 h4 h5 h6 h7 hp hnot =>
     read_add_v6 services s0 s1 s2 s3 s4 s5 s6 s7 p rest h0 h1 h2 h3 h4 h5 h6 h7 hp hnot⟩

/-- Claim C8 witness: the round trips at a concrete IPv4 address and a
concrete IPv6 address. -/
theorem claim_C8_address_roundtrip_witness :
    read_deserialized_add (add_serialize_addr 1 (.v4 127 0 0 1 8333) ++ [])
        = .ok (.v4 127 0 0 1 8333, [])
    ∧ read_deserialized_add (add_serialize_addr 1 (.v6 8193 3512 0 0 0 0 0 1 443) ++ [])
        = .ok (.v6 (bswap16 8193) (bswap16 3512) (bswap16 0) (bswap16 0)
                 (bswap16 0) (bswap16 0) (bswap16 0) (bswap16 1) 443, []) :=
  ⟨claim_C8_address_roundtrip.1 1 127 0 0 1 8333 [] (by decide),
   claim_C8_address_roundtrip.2 1 8193 3512 0 0 0 0 0 1 443 []
     (by decide) (by decide) (by decide) (by decide) (by decide) (by decide)
     (by decide) (by decide) (by decide) (by decide)⟩

/-- A concrete version message with an empty user agent, used to refute the
claimed payload layout. -/
def mC3 : VersionMessage :=
  ⟨70001, 1, 0, .v4 127 0 0 1 18333, .v4 127 0 0 1 18334, 0, "", 0, false⟩

/-- Claim C3 counterexample: even with an empty user agent, the bytes the
serializer produces are not the layout the spec describes — the code emits
a trailing zero byte after the relay flag (87 bytes instead of 86). -/
theorem claim_C3_counterexample :
    VersionMessage.serialize mC3 ≠ specVersionEncode mC3 := by decide

/-- Claim C3 amended: the version serializer writes, in order, the i32
protocol version, the u64 services, the i64 timestamp, the 26-byte receiver
address, the 26-byte sender address, the u64 nonce, then a single zero
placeholder byte (the user-agent bytes are never written), the i32 start
height, the relay byte — and one final zero byte after it, for a fixed
total of 87 bytes. -/
theorem claim_C3_payload_layout (m : VersionMessage) :
    (VersionMessage.serialize m).length = 87
    ∧ (VersionMessage.serialize m).take 4 = i32LE m.version
    ∧ ((VersionMessage.serialize m).drop 4).take 8 = u64LE m.services
    ∧ ((VersionMessage.serialize m).drop 12).take 8 = i64LE m.timestamp
    ∧ ((VersionMessage.serialize m).drop 20).take 26
        = add_serialize_addr m.services m.receiver
    ∧ ((VersionMessage.serialize m).drop 46).take 26
        = add_serialize_addr m.services m.sender
    ∧ ((VersionMessage.serialize m).drop 72).take 8 = u64LE m.nonce
    ∧ ((VersionMessage.serialize m).drop 80).take 1 = [0]
    ∧ ((VersionMessage.serialize m).drop 81).take 4 = i32LE m.start_height
    ∧ ((VersionMessage.serialize m).drop 85).take 1 = [if m.relay then 1 else 0]
    ∧ (VersionMessage.serialize m).drop 86 = [0] := by
  have hser : VersionMessage.serialize m
      = i32LE m.version ++ (u64LE m.services ++ (i64LE m.timestamp
        ++ (add_serialize_addr m.services m.receiver
        ++ (add_serialize_addr m.services m.sender
        ++ (u64LE m.nonce ++ (([0] : Bytes) ++ (i32LE m.start_height
        ++ (([if m.relay then 1 else 0] : Bytes) ++ ([0] : Bytes))))))))) := by
    simp [VersionMessage.serialize, List.append_assoc]
  refine ⟨VersionMessage.serialize_length m, ?_, ?_, ?_, ?_, ?_, ?_, ?_, ?_, ?_, ?_⟩ <;>
    rw [hser]
  · rw [List.take_left' (length_i32LE m.version)]
  · rw [List.drop_left' (length_i32LE m.version),
      List.take_left' (length_u64LE m.services)]
  · rw [show (12 : Nat) = 4 + 8 from rfl, drop_chunk 4 8 (length_i32LE m.version),
      List.drop_left' (length_u64LE m.services),
      List.take_left' (length_i64LE m.timestamp)]
  · rw [show (20 : Nat) = 4 + 16 from rfl, drop_chunk 4 16 (length_i32LE m.version),
      show (16 : Nat) = 8 + 8 from rfl, drop_chunk 8 8 (length_u64LE m.services),
      List.drop_left' (length_i64LE m.timestamp),
      List.take_left' (length_add_serialize_addr m.services m.receiver)]
  · rw [show (46 : Nat) = 4 + 42 from rfl, drop_chunk 4 42 (length_i32LE m.version),
      show (42 : Nat) = 8 + 34 from rfl, drop_chunk 8 34 (length_u64LE m.services),
      show (34 : Nat) = 8 + 26 from rfl, drop_chunk 8 26 (length_i64LE m.timestamp),
      List.drop_left' (length_add_serialize_addr m.services m.receiver),
      List.take_left' (length_add_serialize_addr m.services m.sender)]
  · rw [show (72 : Nat) = 4 + 68 from rfl, drop_chunk 4 68 (length_i32LE m.version),
      show (68 : Nat) = 8 + 60 from rfl, drop_chunk 8 60 (length_u64LE m.services),
      show (60 : Nat) = 8 + 52 from rfl, drop_chunk 8 52 (length_i64LE m.timestamp),
      show (52 : Nat) = 26 + 26 from rfl,
      drop_chunk 26 26 (length_add_serialize_addr m.services m.receiver),
      List.drop_left' (length_add_serialize_addr m.services m.sender),
      List.take_left' (length_u64LE m.nonce)]
  · rw [show (80 : Nat) = 4 + 76 from rfl, drop_chunk 4 76 (length_i32LE m.version),
      show (76 : Nat) = 8 + 68 from rfl, drop_chunk 8 68 (length_u64LE m.services),
      show (68 : Nat) = 8 + 60 from rfl, drop_chunk 8 60 (length_i64LE m.timestamp),
      show (60 : Nat) = 26 + 34 from rfl,
      drop_chunk 26 34 (length_add_serialize_addr m.services m.receiver),
      show (34 : Nat) = 26 + 8 from rfl,
      drop_chunk 26 8 (length_add_serialize_addr m.services m.sender),
      List.drop_left' (length_u64LE m.nonce)]
    rfl
  · rw [show (81 : Nat) = 4 + 77 from rfl, drop_chunk 4 77 (length_i32LE m.version),
      show (77 : Nat) = 8 + 69 from rfl, drop_chunk 8 69 (length_u64LE m.services),
      show (69 : Nat) = 8 + 61 from rfl, drop_chunk 8 61 (length_i64LE m.timestamp),
      show (61 : Nat) = 26 + 35 from rfl,
      drop_chunk 26 35 (length_add_serialize_addr m.services m.receiver),
      show (35 : Nat) = 26 + 9 from rfl,
      drop_chunk 26 9 (length_add_serialize_addr m.services m.sender),
      show (9 : Nat) = 8 + 1 from rfl, drop_chunk 8 1 (length_u64LE m.nonce),
      List.drop_left' (show (([0] : Bytes)).length = 1 from rfl),
      List.take_left' (length_i32LE m.start_height)]
  · rw [show (85 : Nat) = 4 + 81 from rfl, drop_chunk 4 81 (length_i32LE m.version),
      show (81 : Nat) = 8 + 73 from rfl, drop_chunk 8 73 (length_u64LE m.services),
      show (73 : Nat) = 8 + 65 from rfl, drop_chunk 8 65 (length_i64LE m.timestamp),
      show (65 : Nat) = 26 + 39 from rfl,
      drop_chunk 26 39 (length_add_serialize_addr m.services m.receiver),
      show (39 : Nat) = 26 + 13 from rfl,
      drop_chunk 26 13 (length_add_serialize_addr m.services m.sender),
      show (13 : Nat) = 8 + 5 from rfl, drop_chunk 8 5 (length_u64LE m.nonce),
      show (5 : Nat) = 1 + 4 from rfl,
      drop_chunk 1 4 (show (([0] : Bytes)).length = 1 from rfl),
      List.drop_left' (length_i32LE m.start_height)]
    rfl
  · rw [show (86 : Nat) = 4 + 82 from rfl, drop_chunk 4 82 (length_i32LE m.version),
      show (82 : Nat) = 8 + 74 from rfl, drop_chunk 8 74 (length_u64LE m.services),
      show (74 : Nat) = 8 + 66 from rfl, drop_chunk 8 66 (length_i64LE m.timestamp),
      show (66 : Nat) = 26 + 40 from rfl,
      drop_chunk 26 40 (length_add_serialize_addr m.services m.receiver),
      show (40 : Nat) = 26 + 14 from rfl,
      drop_chunk 26 14 (length_add_serialize_addr m.services m.sender),
      show (14 : Nat) = 8 + 6 from rfl, drop_chunk 8 6 (length_u64LE m.nonce),
      show (6 : Nat) = 1 + 5 from rfl,
      drop_chunk 1 5 (show (([0] : Bytes)).length = 1 from rfl),
      show (5 : Nat) = 4 + 1 from rfl, drop_chunk 4 1 (length_i32LE m.start_height),
      List.drop_left'
        (show (([if m.relay then 1 else 0] : Bytes)).length = 1 from rfl)]

/-- Claim C4 amended: for every version message within the fixed-width
ranges whose receiver and sender are IPv4 addresses, decoding the
serialized bytes reproduces version, services, timestamp, receiver, sender,
start height and relay flag bit-for-bit; the nonce comes back shifted right
by 8 bits (its low byte is consumed as the one-byte user-agent placeholder)
and the decoded user agent is the decimal string of the nonce's low byte,
not the message's user agent. -/
theorem claim_C4_roundtrip (m : VersionMessage)
    (a1 a2 a3 a4 pr b1 b2 b3 b4 ps : Nat)
    (hrecv : m.receiver = .v4 a1 a2 a3 a4 pr) (hpr : pr < 65536)
    (hsend : m.sender = .v4 b1 b2 b3 b4 ps) (hps : ps < 65536)
    (hv1 : PROTOCOL_VERSION ≤ m.version) (hv2 : m.version < 2147483648)
    (hs64 : m.services < 18446744073709551616)
    (ht1 : -9223372036854775808 ≤ m.timestamp)
    (ht2 : m.timestamp < 9223372036854775808)
    (hn : m.nonce < 18446744073709551616)
    (hh1 : -2147483648 ≤ m.start_height) (hh2 : m.start_height < 2147483648) :
    VersionMessage.deserialize (VersionMessage.serialize m)
      = .ok ⟨m.version, m.services, m.timestamp, m.receiver, m.sender,
             m.nonce / 256, toString (m.nonce % 256), m.start_height, m.relay⟩ := by
  have hser : VersionMessage.serialize m
      = i32LE m.version ++ (u64LE m.services ++ (i64LE m.timestamp
        ++ (add_serialize_addr m.services (SocketAddr.v4 a1 a2 a3 a4 pr)
        ++ (add_serialize_addr m.services (SocketAddr.v4 b1 b2 b3 b4 ps)
        ++ (([m.nonce % 256] : Bytes)
        ++ (([m.nonce / 256 % 256, m.nonce / 65536 % 256, m.nonce / 16777216 % 256,
              m.nonce / 4294967296 % 256, m.nonce / 1099511627776 % 256,
              m.nonce / 281474976710656 % 256,
              m.nonce / 72057594037927936 % 256, 0] : Bytes)
        ++ (i32LE m.start_height
        ++ (([if m.relay then 1 else 0] : Bytes) ++ ([0] : Bytes)))))))))
      := by
    simp [VersionMessage.serialize, hrecv, hsend, u64LE, List.append_assoc]
  have hv0 : (-2147483648 : Int) ≤ m.version := by
    have : (0 : Int) ≤ PROTOCOL_VERSION := by norm_num [PROTOCOL_VERSION]
    omega
  have hnlt : ¬(m.version < PROTOCOL_VERSION) := not_lt.mpr hv1
  rw [hser, hrecv, hsend]
  simp only [VersionMessage.deserialize, VersionMessage.deserializeRest,
    readBytes_exact, length_i32LE, length_u64LE, length_i64LE,
    List.length_cons, List.length_nil, List.length_singleton,
    read_add_v4, hpr, hps,
    i32fromLE_i32LE m.version hv0 hv2, hnlt, if_false,
    fromLEBytes_u64LE m.services hs64,
    i64fromLE_i64LE m.timestamp ht1 ht2,
    List.getD_cons_zero,
    fromLEBytes_nonce_tail m.nonce hn,
    i32fromLE_i32LE m.start_height hh1 hh2,
    relay_decode m.relay]

/-- A concrete valid version message with a non-trivial user agent and
nonce, used against the round-trip claim. -/
def mC4 : VersionMessage :=
  ⟨70001, 1, 100, .v4 10 0 0 1 8333, .v4 10 0 0 2 8334, 5, "/test/", 7, true⟩

/-- Claim C4 counterexample: decoding the encoding of a valid version
message does not reproduce the user agent: `mC4` carries `"/test/"` but
decodes with user agent `"5"` (the decimal string of its nonce's low byte),
every other claimed-reproduced field aside. -/
theorem claim_C4_counterexample :
    VersionMessage.deserialize (VersionMessage.serialize mC4)
        = .ok ⟨70001, 1, 100, .v4 10 0 0 1 8333, .v4 10 0 0 2 8334, 0, "5", 7, true⟩
    ∧ mC4.userAgent = "/test/"
    ∧ ("5" : String) ≠ "/test/" := by decide

/-- Claim C4 witness: the amended round trip at the concrete message
`mC4`. -/
theorem claim_C4_roundtrip_witness :
    VersionMessage.deserialize (VersionMessage.serialize mC4)
      = .ok ⟨mC4.version, mC4.services, mC4.timestamp, mC4.receiver, mC4.sender,
             mC4.nonce / 256, toString (mC4.nonce % 256), mC4.start_height,
             mC4.relay⟩ :=
  claim_C4_roundtrip mC4 10 0 0 1 8333 10 0 0 2 8334 rfl (by decide) rfl (by decide)
    (by decide) (by decide) (by decide) (by decide) (by decide) (by decide)
    (by decide) (by decide)

/-- Claim C10: the version serializer is independent of the user agent —
two messages equal everywhere but the user agent serialize to identical
bytes — and the serialized payload has the same fixed length, 87 bytes,
whatever the user agent is; in particular the user agent's bytes never
appear in the output. -/
theorem claim_C10_user_agent_independence (m : VersionMessage) (ua : String) :
    VersionMessage.serialize { m with userAgent := ua } = VersionMessage.serialize m
    ∧ (VersionMessage.serialize m).length = 87 :=
  ⟨rfl, VersionMessage.serialize_length m⟩

end NodeHandshake
